import Mathlib

/-!
Shallow embedding of the order-service HTTP handlers (src/src/index.ts) and
theorems checking the specification's claims against them.

Modelling conventions:
* JavaScript numbers are modelled as `JsonNum`: a finite rational, NaN, or an
  infinity (the spec itself treats amounts as plain real numbers).
* Request bodies are modelled as `Json` values, since the validators inspect
  the runtime type of each field (`typeof`, `Array.isArray`).
* The global `orders` Map is modelled as an association list with JS `Map`
  semantics: `set` overwrites in place, `values()` preserves insertion order.
* The nondeterministic inputs of a handler (the `randomUUID()` result and the
  `new Date().toISOString()` timestamp) are explicit parameters.
* `Date.parse` on strings that already match the handler's RFC3339-profile
  regex is a platform function, modelled after the ECMAScript Date Time
  String Format range rules (`validInstant`).
-/

namespace OrderService

/-- A JavaScript number: finite (modelled as a rational), NaN, or ±Infinity. -/
inductive JsonNum where
  | finite (q : ℚ)
  | nan
  | posInf
  | negInf
deriving DecidableEq

/-- Model of `Number.isInteger` on a JS number. -/
def JsonNum.isInteger : JsonNum → Bool
  | .finite q => q.den == 1
  | _ => false

/-- Model of `Number.isFinite` on a JS number. -/
def JsonNum.isFinite : JsonNum → Bool
  | .finite _ => true
  | _ => false

/-- The JS comparison `n < 1` (false for NaN). -/
def JsonNum.ltOne : JsonNum → Bool
  | .finite q => decide (q < 1)
  | .nan => false
  | .posInf => false
  | .negInf => true

/-- The JS comparison `n <= 0` (false for NaN); used to phrase "non-positive". -/
def JsonNum.leZero : JsonNum → Bool
  | .finite q => decide (q ≤ 0)
  | .nan => false
  | .posInf => false
  | .negInf => true

/-- A JSON value, as delivered by the body parser. -/
inductive Json where
  | null
  | bool (b : Bool)
  | num (n : JsonNum)
  | str (s : String)
  | arr (elems : List Json)
  | obj (fields : List (String × Json))

/-- First-match lookup in an object's field list (JSON objects have unique keys). -/
def lookupField : List (String × Json) → String → Option Json
  | [], _ => none
  | (k, v) :: rest, key => if k = key then some v else lookupField rest key

/-- JS property access `j.key`: `undefined` (here `none`) unless `j` is an
object carrying the field. -/
def getField (j : Json) (key : String) : Option Json :=
  match j with
  | .obj fields => lookupField fields key
  | _ => none

/-- A validated order item; `quantity` and `unitPrice` are the finite numeric
values the validator admitted (`Number(...)` coercion in `buildOrder` is the
identity on numbers). -/
structure OrderItem where
  sku : String
  quantity : ℚ
  unitPrice : ℚ
deriving DecidableEq

/-- The validated creation payload (`CreateOrderPayload` in types.ts). -/
structure CreateOrderPayload where
  customerId : String
  paymentMethodId : String
  items : List OrderItem
deriving DecidableEq

/-- An order record (`Order` in types.ts). `status` is kept as the literal
string the code stores; `cancelledAt` is the optional timestamp. -/
structure Order where
  id : String
  customerId : String
  status : String
  items : List OrderItem
  totalAmount : ℚ
  createdAt : String
  cancelledAt : Option String := none
deriving DecidableEq

/-- The global `orders` Map, as an association list in insertion order. -/
abbrev Store := List (String × Order)

/-- Model of `orders.get(k)`. -/
def mapGet (m : Store) (k : String) : Option Order :=
  match m with
  | [] => none
  | (k', v) :: rest => if k' = k then some v else mapGet rest k

/-- Model of `orders.set(k, v)`: overwrite in place if the key exists, else append
(JS `Map` keeps the original insertion position on overwrite). -/
def mapSet (m : Store) (k : String) (v : Order) : Store :=
  match m with
  | [] => [(k, v)]
  | (k', v') :: rest => if k' = k then (k, v) :: rest else (k', v') :: mapSet rest k v

/-- Model of `Array.from(orders.values())`. -/
def mapValues (m : Store) : List Order := m.map (·.2)

/-- JS `String.prototype.trim`: strip leading and trailing whitespace
(modelled on the ASCII whitespace characters; defined structurally over the
character list so that it evaluates in the kernel). -/
def jsTrim (s : String) : String :=
  ⟨((s.data.dropWhile Char.isWhitespace).reverse.dropWhile Char.isWhitespace).reverse⟩

/-- The `orderStatuses` set of index.ts. -/
def orderStatuses : List String := ["PENDING_PAYMENT", "CONFIRMED", "SHIPPED", "CANCELLED"]

/-- The `buildOrder` function of index.ts: sums `unitPrice * quantity` with `reduce` from 0,
sets status `PENDING_PAYMENT` and the creation timestamp. -/
def buildOrder (orderId : String) (payload : CreateOrderPayload) (now : String) : Order :=
  { id := orderId
    customerId := payload.customerId
    status := "PENDING_PAYMENT"
    items := payload.items
    totalAmount := payload.items.foldl (fun sum item => sum + item.unitPrice * item.quantity) 0
    createdAt := now }

/-- The `isValidOrderItem` function of index.ts: the item must be a plain object
(`!item || typeof item !== 'object' || Array.isArray(item)` rejects everything
else), `sku` a string that is non-blank after trimming, `quantity` an integer
number that is not `< 1`, `unitPrice` a finite number. -/
def isValidOrderItem (item : Json) : Bool :=
  match item with
  | .obj _ =>
    (match getField item "sku" with
     | some (.str s) => !(jsTrim s == "")
     | _ => false)
    && (match getField item "quantity" with
        | some (.num q) => q.isInteger && !q.ltOne
        | _ => false)
    && (match getField item "unitPrice" with
        | some (.num p) => p.isFinite
        | _ => false)
  | _ => false

/-- Extract the typed item from a JSON item that passed `isValidOrderItem`
(the TS code merely casts; the defaults below are unreachable for valid items). -/
def toOrderItem (j : Json) : OrderItem :=
  { sku := match getField j "sku" with
      | some (.str s) => s
      | _ => ""
    quantity := match getField j "quantity" with
      | some (.num (.finite q)) => q
      | _ => 0
    unitPrice := match getField j "unitPrice" with
      | some (.num (.finite q)) => q
      | _ => 0 }

/-- Outcome of `POST /orders`: HTTP 201 with the order, or
400 `{error: 'Invalid order payload'}`. -/
inductive CreateResult where
  | created (order : Order)
  | invalidPayload
deriving DecidableEq

/-- The `POST /orders` handler of index.ts. `orderId` is the `randomUUID()`
value and `now` the `new Date().toISOString()` value. The two downstream
`safeJsonFetch` calls never affect the result or the store (all their failures
are swallowed), and `publishAnalyticsNotification` is detached, so neither is
part of this state transition. -/
def handleCreate (body : Json) (orderId now : String) (orders : Store) :
    CreateResult × Store :=
  match getField body "customerId", getField body "paymentMethodId",
        getField body "items" with
  | some (.str customerId), some (.str paymentMethodId), some (.arr items) =>
    if items.length = 0 then (.invalidPayload, orders)
    else if items.any (fun item => !isValidOrderItem item) then (.invalidPayload, orders)
    else
      let validatedPayload : CreateOrderPayload :=
        { customerId := customerId
          paymentMethodId := paymentMethodId
          items := items.map toOrderItem }
      let order := buildOrder orderId validatedPayload now
      (.created order, mapSet orders orderId order)
  | _, _, _ => (.invalidPayload, orders)

/-- The placeholder order synthesized by `GET /orders/:orderId` and by the
cancel handler when the id is not in the store (both build this same literal). -/
def defaultOrderFor (orderId now : String) : Order :=
  { id := orderId
    customerId := "customer-" ++ orderId
    status := "CONFIRMED"
    items := [{ sku := "SKU-DEFAULT", quantity := 1, unitPrice := 100 }]
    totalAmount := 100
    createdAt := now }

/-- The `GET /orders/:orderId` handler of index.ts: always HTTP 200, returning
the stored order or the synthesized placeholder. -/
def handleGet (orderId : String) (orders : Store) (now : String) : Order :=
  match mapGet orders orderId with
  | some existing => existing
  | none => defaultOrderFor orderId now

/-! ### The date-time validator -/

/-- The time-zone suffix admitted by the handler's RFC3339-profile regex:
`Z` or `±HH:MM`. -/
inductive TimeZoneSpec where
  | utc
  | offset (plus : Bool) (h m : Nat)

/-- The components of a date-time string matching the profile regex. -/
structure DateTimeParts where
  year : Nat
  month : Nat
  day : Nat
  hour : Nat
  minute : Nat
  second : Nat
  fracDigits : List Char
  tz : TimeZoneSpec

/-- Numeric value of a decimal digit character. -/
def digitVal (c : Char) : Nat := c.toNat - 48

/-- Numeric value of a two-digit group. -/
def twoDigits (a b : Char) : Nat := 10 * digitVal a + digitVal b

/-- Parse the regex tail `(?:Z|[+-]\d\x7b2\x7d:\d\x7b2\x7d)$`. -/
def parseOffsetChars : List Char → Option TimeZoneSpec
  | ['Z'] => some .utc
  | [sg, a, b, ':', c, d] =>
    if (sg == '+' || sg == '-') && a.isDigit && b.isDigit && c.isDigit && d.isDigit then
      some (.offset (sg == '+') (twoDigits a b) (twoDigits c d))
    else none
  | _ => none

/-- Parse the regex tail `(?:\.\d+)?` followed by the offset; an empty digit
list means the fractional part was absent. -/
def parseFracOffset : List Char → Option (List Char × TimeZoneSpec)
  | '.' :: rest =>
    let ds := rest.takeWhile Char.isDigit
    if ds.isEmpty then none
    else (parseOffsetChars (rest.dropWhile Char.isDigit)).map (fun tz => (ds, tz))
  | rest => (parseOffsetChars rest).map (fun tz => ([], tz))

/-- Structural match against the handler's regex
`^\d\x7b4\x7d-\d\x7b2\x7d-\d\x7b2\x7dT\d\x7b2\x7d:\d\x7b2\x7d:\d\x7b2\x7d(?:\.\d+)?(?:Z|[+-]\d\x7b2\x7d:\d\x7b2\x7d)$`,
returning the parsed components when it matches. -/
def parseDateTimeProfile (s : String) : Option DateTimeParts :=
  match s.data with
  | y1 :: y2 :: y3 :: y4 :: '-' :: m1 :: m2 :: '-' :: d1 :: d2 :: 'T' ::
    h1 :: h2 :: ':' :: n1 :: n2 :: ':' :: s1 :: s2 :: rest =>
    if [y1, y2, y3, y4, m1, m2, d1, d2, h1, h2, n1, n2, s1, s2].all Char.isDigit then
      (parseFracOffset rest).map fun p =>
        { year := 1000 * digitVal y1 + 100 * digitVal y2 + 10 * digitVal y3 + digitVal y4
          month := twoDigits m1 m2
          day := twoDigits d1 d2
          hour := twoDigits h1 h2
          minute := twoDigits n1 n2
          second := twoDigits s1 s2
          fracDigits := p.1
          tz := p.2 }
    else none
  | _ => none

/-- Gregorian leap-year rule. -/
def isLeapYear (y : Nat) : Bool := (y % 4 == 0 && y % 100 != 0) || y % 400 == 0

/-- Days in a month of the proleptic Gregorian calendar. -/
def daysInMonth (y m : Nat) : Nat :=
  if m == 2 then (if isLeapYear y then 29 else 28)
  else if m == 4 || m == 6 || m == 9 || m == 11 then 30
  else 31

/-- ECMAScript time-of-day range check: `HH ≤ 23, MM ≤ 59, SS ≤ 59`, with the
special literal `24:00:00` (fraction all zeros) allowed for end of day. -/
def validTime (p : DateTimeParts) : Bool :=
  (p.hour ≤ 23 && p.minute ≤ 59 && p.second ≤ 59)
  || (p.hour == 24 && p.minute == 0 && p.second == 0 && p.fracDigits.all (· == '0'))

/-- ECMAScript offset range check. -/
def validOffset : TimeZoneSpec → Bool
  | .utc => true
  | .offset _ h m => h ≤ 23 && m ≤ 59

/-- Model of `Number.isFinite(Date.parse(s))` for a string already matching the profile
regex: ECMAScript rejects out-of-range components of the Date Time String
Format with NaN. Modelled from the ECMAScript platform semantics. -/
def validInstant (p : DateTimeParts) : Bool :=
  1 ≤ p.month && p.month ≤ 12 && 1 ≤ p.day && p.day ≤ daysInMonth p.year p.month
  && validTime p && validOffset p.tz

/-- The `isValidDateTime` function of index.ts: the profile regex must match and
`Date.parse` must yield a finite time value. -/
def isValidDateTime (s : String) : Bool :=
  match parseDateTimeProfile s with
  | some p => validInstant p
  | none => false

/-! ### The list handler -/

/-- The four query parameters of `GET /orders`; `none` models an absent
(or non-string) parameter. The source's `from`/`to` are Lean keywords,
hence `fromParam`/`toParam`. -/
structure ListQuery where
  customerId : Option String
  status : Option String
  fromParam : Option String
  toParam : Option String

/-- Lexicographic strict comparison of character sequences (used by the JS
`<`/`>` operators on strings). Defined structurally so it evaluates in the
kernel. -/
def charListLt : List Char → List Char → Bool
  | _, [] => false
  | [], _ :: _ => true
  | a :: as, b :: bs => if a < b then true else if b < a then false else charListLt as bs

/-- JS `a < b` on strings: lexicographic comparison of the characters. -/
def strLt (a b : String) : Bool := charListLt a.data b.data

/-- JS `a <= b` on strings, expressed through the strict order. -/
def strLe (a b : String) : Bool := strLt a b || a == b

/-- JS truthiness of a possibly-absent string: present and non-empty. -/
def truthy : Option String → Bool
  | some s => s != ""
  | none => false

/-- The JS idiom `s || d` on a possibly-absent string. -/
def jsOr (s : Option String) (d : String) : String :=
  match s with
  | some s => if s = "" then d else s
  | none => d

/-- Outcome of `GET /orders`: HTTP 200 with the filtered list, or
400 `{error: 'Invalid query parameters'}`. -/
inductive ListResult where
  | ok (orders : List Order)
  | invalidQuery
deriving DecidableEq

/-- The filter predicate inlined in the `GET /orders` handler: each truthy
parameter must match (`customerId`/`status` by `!==`, `from`/`to` by the JS
string comparisons `createdAt < from` / `createdAt > to`). -/
def matchesFilters (q : ListQuery) (order : Order) : Bool :=
  if truthy q.customerId && order.customerId != q.customerId.getD "" then false
  else if truthy q.status && order.status != q.status.getD "" then false
  else if truthy q.fromParam && strLt order.createdAt (q.fromParam.getD "") then false
  else if truthy q.toParam && strLt (q.toParam.getD "") order.createdAt then false
  else true

/-- The `GET /orders` handler of index.ts: reject a truthy status outside
`orderStatuses` or a truthy from/to failing `isValidDateTime`; when the store
is empty, fall back to a single synthesized order (customerId and status taken
from the query with `||` defaults); then filter. `freshId` is the fallback's
`randomUUID()` and `now` its timestamp. -/
def handleList (q : ListQuery) (orders : Store) (freshId now : String) : ListResult :=
  if truthy q.status && !orderStatuses.contains (q.status.getD "") then .invalidQuery
  else if (truthy q.fromParam && !isValidDateTime (q.fromParam.getD ""))
       || (truthy q.toParam && !isValidDateTime (q.toParam.getD "")) then .invalidQuery
  else
    let list := mapValues orders
    let list := if list.isEmpty then
        [{ id := freshId
           customerId := jsOr q.customerId "customer-default"
           status := jsOr q.status "CONFIRMED"
           items := [{ sku := "SKU-DEFAULT", quantity := 1, unitPrice := 100 }]
           totalAmount := 100
           createdAt := now }]
      else list
    .ok (list.filter (matchesFilters q))

/-! ### The cancel handler -/

/-- Outcome of `POST /orders/:orderId/cancel`: HTTP 200 with the cancelled
order, or 400 `{error: 'Invalid cancellation request'}`. -/
inductive CancelResult where
  | ok (order : Order)
  | invalidCancellation
deriving DecidableEq

/-- Model of `req.body ?? \x7b\x7d`: a null body is replaced by the empty object. -/
def payloadOf (body : Json) : Json :=
  match body with
  | .null => .obj []
  | b => b

/-- The `POST /orders/:orderId/cancel` handler of index.ts: the body must be a
plain object; `reason`, when present, must be a string of length at most 256;
the stored order (or the synthesized placeholder) is overwritten with a copy
carrying `status = CANCELLED` and `cancelledAt = now`, unconditionally. -/
def handleCancel (orderId : String) (body : Json) (now : String) (orders : Store) :
    CancelResult × Store :=
  let payload := payloadOf body
  let proceed : CancelResult × Store :=
    let existing := (mapGet orders orderId).getD (defaultOrderFor orderId now)
    let cancelled : Order := { existing with status := "CANCELLED", cancelledAt := some now }
    (.ok cancelled, mapSet orders orderId cancelled)
  match payload with
  | .obj _ =>
    (match getField payload "reason" with
     | none => proceed
     | some (.str reason) =>
       if reason.length > 256 then (.invalidCancellation, orders) else proceed
     | some _ => (.invalidCancellation, orders))
  | _ => (.invalidCancellation, orders)

/-! ### The analytics publisher completion race -/

/-- The three completion triggers of `publishAnalyticsNotification`: the
acknowledged publish callback, the connect-error handler, and the 1500 ms
deadline timer. -/
inductive Trigger where
  | publishAck
  | connectError
  | deadline
deriving DecidableEq

/-- Observable state of one `publishAnalyticsNotification` run: the
`completed` guard flag, the number of `client.end(true)` calls performed, and
whether `clearTimeout` has run. -/
structure PublisherState where
  completed : Bool
  endCalls : Nat
  timeoutCleared : Bool
deriving DecidableEq

/-- The `done` closure: close the client and mark completion unless the
`completed` guard is already set. -/
def done (s : PublisherState) : PublisherState :=
  if s.completed then s else { s with completed := true, endCalls := s.endCalls + 1 }

/-- Effect of one trigger firing (the publish and error callbacks call
`clearTimeout` before `done`; the timer callback only calls `done`). -/
def fireTrigger (s : PublisherState) (t : Trigger) : PublisherState :=
  match t with
  | .publishAck => done { s with timeoutCleared := true }
  | .connectError => done { s with timeoutCleared := true }
  | .deadline => done s

/-- A complete run of the publisher: the triggers fire one at a time (the JS
event loop is single-threaded), in some order given by the list. -/
def runPublisher (ts : List Trigger) : PublisherState :=
  ts.foldl fireTrigger { completed := false, endCalls := 0, timeoutCleared := false }

/-! ## Helper lemmas -/

theorem foldl_add_mul (l : List OrderItem) (init : ℚ) :
    l.foldl (fun sum item => sum + item.unitPrice * item.quantity) init
      = init + (l.map fun item => item.unitPrice * item.quantity).sum := by
  induction l generalizing init with
  | nil => simp
  | cons a l ih => simp [List.foldl_cons, ih, add_assoc]

theorem mapGet_mapSet_self (m : Store) (k : String) (v : Order) :
    mapGet (mapSet m k v) k = some v := by
  induction m with
  | nil => simp [mapSet, mapGet]
  | cons p rest ih =>
    by_cases h : p.1 = k
    · simp [mapSet, mapGet, h]
    · simp [mapSet, mapGet, h, ih]

theorem mem_mapSet (m : Store) (k : String) (v : Order) (p : String × Order)
    (hp : p ∈ mapSet m k v) : p.2 = v ∨ p ∈ m := by
  induction m with
  | nil => simp [mapSet] at hp; simp [hp]
  | cons q rest ih =>
    by_cases h : q.1 = k
    · simp only [mapSet, if_pos h, List.mem_cons] at hp
      rcases hp with rfl | hp
      · exact Or.inl rfl
      · exact Or.inr (List.mem_cons_of_mem _ hp)
    · simp only [mapSet, if_neg h, List.mem_cons] at hp
      rcases hp with rfl | hp
      · exact Or.inr (List.mem_cons_self _ _)
      · rcases ih hp with h' | h'
        · exact Or.inl h'
        · exact Or.inr (List.mem_cons_of_mem _ h')

theorem mapGet_mem (m : Store) (k : String) (o : Order) (h : mapGet m k = some o) :
    (k, o) ∈ m := by
  induction m with
  | nil => simp [mapGet] at h
  | cons p rest ih =>
    by_cases hk : p.1 = k
    · simp only [mapGet, if_pos hk] at h
      cases h
      subst hk
      exact List.mem_cons_self _ _
    · simp only [mapGet, if_neg hk] at h
      exact List.mem_cons_of_mem _ (ih h)

/-! ## Claim C9: the publisher closes exactly once -/

theorem fireTrigger_completed (s : PublisherState) (t : Trigger)
    (h : s.completed = true) :
    (fireTrigger s t).completed = true ∧ (fireTrigger s t).endCalls = s.endCalls := by
  cases t <;> simp [fireTrigger, done, h]

theorem foldl_fireTrigger_stable (ts : List Trigger) (s : PublisherState)
    (h : s.completed = true) :
    (ts.foldl fireTrigger s).completed = true
      ∧ (ts.foldl fireTrigger s).endCalls = s.endCalls := by
  induction ts generalizing s with
  | nil => exact ⟨h, rfl⟩
  | cons t rest ih =>
    obtain ⟨h1, h2⟩ := fireTrigger_completed s t h
    obtain ⟨h3, h4⟩ := ih (fireTrigger s t) h1
    exact ⟨h3, by rw [List.foldl_cons] at *; omega⟩

/-- Claim C9: in every complete run of `publishAnalyticsNotification`, whatever
the order in which its three completion triggers fire (and however many of them
fire), the guarded close-and-report action `client.end(true)` executes exactly
once — never zero times (the deadline timer fires whenever the other triggers
do not, so a complete run has at least one trigger) and never more than once. -/
theorem publisher_closes_exactly_once (ts : List Trigger) (h : ts ≠ []) :
    (runPublisher ts).endCalls = 1 := by
  match ts, h with
  | t :: rest, _ =>
    have h1 : (fireTrigger { completed := false, endCalls := 0, timeoutCleared := false } t).completed = true
        ∧ (fireTrigger { completed := false, endCalls := 0, timeoutCleared := false } t).endCalls = 1 := by
      cases t <;> exact ⟨rfl, rfl⟩
    have h2 := foldl_fireTrigger_stable rest _ h1.1
    unfold runPublisher
    rw [List.foldl_cons, h2.2, h1.2]

/-- Witness for C9 at the run in which only the deadline timer fires. -/
theorem publisher_closes_exactly_once_witness :
    (runPublisher [Trigger.deadline]).endCalls = 1 :=
  publisher_closes_exactly_once [Trigger.deadline] (by decide)

/-! ## Claim C4: lookups never fail -/

/-- Claim C4: `GET /orders/:orderId` always returns an order (the handler has
no not-found branch): a stored order is returned unchanged, and for an absent
id the synthesized placeholder (status `CONFIRMED`) is returned. -/
theorem get_never_fails (orderId : String) (orders : Store) (now : String) :
    (∀ o, mapGet orders orderId = some o → handleGet orderId orders now = o)
    ∧ (mapGet orders orderId = none →
        handleGet orderId orders now = defaultOrderFor orderId now
        ∧ (handleGet orderId orders now).status = "CONFIRMED") := by
  constructor
  · intro o ho
    unfold handleGet
    rw [ho]
  · intro hn
    unfold handleGet
    rw [hn]
    exact ⟨rfl, rfl⟩

/-- A stored order used to instantiate C4's theorem. -/
def orderW4 : Order :=
  { id := "a1", customerId := "c1", status := "SHIPPED"
    items := [{ sku := "S", quantity := 1, unitPrice := 3 }]
    totalAmount := 3, createdAt := "2024-01-01T00:00:00.000Z" }

/-- Witness for C4: a present id returns the stored order, an absent one the
placeholder. -/
theorem get_never_fails_witness :
    handleGet "a1" [("a1", orderW4)] "t0" = orderW4
    ∧ handleGet "b2" [("a1", orderW4)] "t0" = defaultOrderFor "b2" "t0" :=
  ⟨(get_never_fails "a1" [("a1", orderW4)] "t0").1 orderW4 (by decide),
   ((get_never_fails "b2" [("a1", orderW4)] "t0").2 (by decide)).1⟩

/-! ## Claim C2: totalAmount and initial status of a created order -/

/-- Claim C2: for every accepted creation payload, the order returned by
`POST /orders` has `totalAmount` equal to the exact sum of
`unitPrice * quantity` over its items and status `PENDING_PAYMENT`, and the
very same order is what the store insert recorded under the new id. -/
theorem create_total_and_status (body : Json) (orderId now : String)
    (orders : Store) (order : Order) (orders' : Store)
    (h : handleCreate body orderId now orders = (.created order, orders')) :
    order.totalAmount = (order.items.map fun item => item.unitPrice * item.quantity).sum
    ∧ order.status = "PENDING_PAYMENT"
    ∧ mapGet orders' orderId = some order := by
  unfold handleCreate at h
  split at h
  · split at h
    · simp at h
    · split at h
      · simp at h
      · simp only [Prod.mk.injEq, CreateResult.created.injEq] at h
        obtain ⟨rfl, rfl⟩ := h
        refine ⟨?_, rfl, mapGet_mapSet_self orders orderId _⟩
        simp [buildOrder, foldl_add_mul]
  · simp at h

/-- A well-formed item payload: `\x7bsku: "SKU-1", quantity: 2, unitPrice: 5\x7d`. -/
def item1 : Json :=
  .obj [("sku", .str "SKU-1"), ("quantity", .num (.finite 2)),
        ("unitPrice", .num (.finite 5))]

/-- A valid creation payload with customer `cust-1`. -/
def payload2 : Json :=
  .obj [("customerId", .str "cust-1"), ("paymentMethodId", .str "pm-1"),
        ("items", .arr [item1])]

/-- The order `handleCreate` builds from `payload2`. -/
def orderW2 : Order :=
  { id := "o2", customerId := "cust-1", status := "PENDING_PAYMENT"
    items := [{ sku := "SKU-1", quantity := 2, unitPrice := 5 }]
    totalAmount := 10, createdAt := "t2" }

/-- Witness for C2 at `payload2`. -/
theorem create_total_and_status_witness :
    orderW2.totalAmount = (orderW2.items.map fun item => item.unitPrice * item.quantity).sum
    ∧ orderW2.status = "PENDING_PAYMENT"
    ∧ mapGet [("o2", orderW2)] "o2" = some orderW2 :=
  create_total_and_status payload2 "o2" "t2" [] orderW2 [("o2", orderW2)]
    (by with_unfolding_all decide)

/-! ## Claim C1: which customerId/paymentMethodId values are rejected -/

/-- Model of the check `typeof body.key === 'string'`. -/
def isStringField (body : Json) (key : String) : Bool :=
  match getField body key with
  | some (.str _) => true
  | _ => false

/-- Claim C1 counterexample: a payload whose `customerId` is the empty string
(with everything else valid) is NOT rejected — the handler only checks
`typeof customerId === 'string'`, so the create proceeds and inserts into the
store, where the claim demands the InvalidPayload rejection. -/
theorem create_accepts_empty_customerId :
    (handleCreate
        (.obj [("customerId", .str ""), ("paymentMethodId", .str "pm-1"),
               ("items", .arr [item1])]) "o1" "t1" []).1 ≠ CreateResult.invalidPayload
    ∧ (handleCreate
        (.obj [("customerId", .str ""), ("paymentMethodId", .str "pm-1"),
               ("items", .arr [item1])]) "o1" "t1" []).2 ≠ ([] : Store) := by
  constructor <;> decide

/-- Claim C1 (amended): for every creation payload in which `customerId` is
absent or not a string, or `paymentMethodId` is absent or not a string, the
create operation returns the InvalidPayload rejection and proceeds no further
(the store is unchanged). An empty string passes the `typeof` check, so the
original "or an empty string" clause does not hold. -/
theorem create_rejects_nonstring_ids (body : Json) (orderId now : String)
    (orders : Store)
    (h : isStringField body "customerId" = false
       ∨ isStringField body "paymentMethodId" = false) :
    handleCreate body orderId now orders = (.invalidPayload, orders) := by
  unfold handleCreate
  split
  · rename_i c p its heq1 heq2 heq3
    exfalso
    rcases h with h | h
    · unfold isStringField at h
      rw [heq1] at h
      simp at h
    · unfold isStringField at h
      rw [heq2] at h
      simp at h
  · rfl

/-- Witness for C1 (amended) at the empty payload (both fields absent). -/
theorem create_rejects_nonstring_ids_witness :
    isStringField (Json.obj []) "customerId" = false
    ∧ handleCreate (Json.obj []) "o1" "t1" [] = (CreateResult.invalidPayload, []) :=
  ⟨by decide,
   create_rejects_nonstring_ids (Json.obj []) "o1" "t1" [] (Or.inl (by decide))⟩

/-! ## Claim C3: invalid payloads are rejected with no store change -/

/-- The item's `sku` is a string that is blank after trimming. -/
def blankSku (item : Json) : Prop :=
  ∃ s, getField item "sku" = some (Json.str s) ∧ jsTrim s = ""

/-- The item's `quantity` is a number that is non-integer or non-positive. -/
def badQuantity (item : Json) : Prop :=
  ∃ n, getField item "quantity" = some (Json.num n)
    ∧ (n.isInteger = false ∨ n.leZero = true)

/-- The item's `unitPrice` is a non-finite number. -/
def badUnitPrice (item : Json) : Prop :=
  ∃ n, getField item "unitPrice" = some (Json.num n) ∧ n.isFinite = false

theorem JsonNum.ltOne_of_leZero (n : JsonNum) (h : n.leZero = true) :
    n.ltOne = true := by
  cases n with
  | finite q =>
    simp only [JsonNum.leZero, decide_eq_true_eq] at h
    simp only [JsonNum.ltOne, decide_eq_true_eq]
    exact lt_of_le_of_lt h one_pos
  | nan => simp [JsonNum.leZero] at h
  | posInf => simp [JsonNum.leZero] at h
  | negInf => rfl

theorem isValidOrderItem_eq_false_of_bad (item : Json)
    (h : blankSku item ∨ badQuantity item ∨ badUnitPrice item) :
    isValidOrderItem item = false := by
  cases item with
  | obj fields =>
    rcases h with ⟨s, hs, htrim⟩ | ⟨n, hn, hbad⟩ | ⟨n, hn, hbad⟩
    · simp [isValidOrderItem, hs, htrim]
    · rcases hbad with hb | hb
      · simp [isValidOrderItem, hn, hb]
      · simp [isValidOrderItem, hn, JsonNum.ltOne_of_leZero n hb]
    · simp [isValidOrderItem, hn, hbad]
  | null => rfl
  | bool b => rfl
  | num n => rfl
  | str s => rfl
  | arr l => rfl

/-- Claim C3: every creation payload missing `customerId`, `paymentMethodId`
or `items`, or containing an item with a non-positive or non-integer quantity,
a non-finite unitPrice, or a sku blank after trimming, is rejected with the
invalid-payload error, and the store is left unchanged. -/
theorem create_rejects_bad_payloads (body : Json) (orderId now : String)
    (orders : Store)
    (h : getField body "customerId" = none
       ∨ getField body "paymentMethodId" = none
       ∨ getField body "items" = none
       ∨ ∃ l, getField body "items" = some (Json.arr l)
           ∧ ∃ item ∈ l, blankSku item ∨ badQuantity item ∨ badUnitPrice item) :
    handleCreate body orderId now orders = (.invalidPayload, orders) := by
  unfold handleCreate
  split
  · rename_i c p its heq1 heq2 heq3
    rcases h with h | h | h | ⟨l, hl, item, hmem, hbad⟩
    · rw [h] at heq1; cases heq1
    · rw [h] at heq2; cases heq2
    · rw [h] at heq3; cases heq3
    · rw [hl] at heq3
      injection heq3 with heq3
      injection heq3 with heq3
      subst heq3
      have hany : l.any (fun item => !isValidOrderItem item) = true :=
        List.any_eq_true.mpr
          ⟨item, hmem, by rw [isValidOrderItem_eq_false_of_bad item hbad]; rfl⟩
      have hne : ¬ l.length = 0 := by
        cases l
        · cases hmem
        · simp
      rw [if_neg hne, if_pos hany]
  · rfl

/-- An item payload whose `sku` is blank after trimming. -/
def item3 : Json :=
  .obj [("sku", .str " "), ("quantity", .num (.finite 1)),
        ("unitPrice", .num (.finite 3))]

/-- A creation payload containing the blank-sku item. -/
def payload3 : Json :=
  .obj [("customerId", .str "c"), ("paymentMethodId", .str "p"),
        ("items", .arr [item3])]

/-- Witness for C3 at the blank-sku payload. -/
theorem create_rejects_bad_payloads_witness :
    blankSku item3
    ∧ handleCreate payload3 "o3" "t3" [] = (CreateResult.invalidPayload, []) :=
  ⟨⟨" ", rfl, rfl⟩,
   create_rejects_bad_payloads payload3 "o3" "t3" []
     (Or.inr (Or.inr (Or.inr
       ⟨[item3], rfl, item3, List.mem_singleton.mpr rfl, Or.inl ⟨" ", rfl, rfl⟩⟩)))⟩

/-! ## Claim C5: cancellation is unconditional and idempotent-by-overwrite -/

/-- The cancel body is well-formed: a plain object whose `reason`, when
present, is a string of length at most 256. -/
def validCancelBody (body : Json) : Prop :=
  (∃ fs, payloadOf body = Json.obj fs)
  ∧ (getField (payloadOf body) "reason" = none
     ∨ ∃ s, getField (payloadOf body) "reason" = some (Json.str s) ∧ s.length ≤ 256)

theorem cancel_ok_general (orderId : String) (body : Json) (now : String)
    (orders : Store) (h : validCancelBody body) :
    ∃ o, (handleCancel orderId body now orders).1 = .ok o
      ∧ o.status = "CANCELLED" ∧ o.cancelledAt = some now
      ∧ mapGet (handleCancel orderId body now orders).2 orderId = some o := by
  obtain ⟨⟨fs, hfs⟩, hreason⟩ := h
  rcases hreason with hr | ⟨s, hr, hlen⟩
  · rw [hfs] at hr
    simp only [handleCancel, hfs, hr]
    exact ⟨_, rfl, rfl, rfl, mapGet_mapSet_self orders orderId _⟩
  · rw [hfs] at hr
    simp only [handleCancel, hfs, hr]
    rw [if_neg (show ¬ s.length > 256 by omega)]
    exact ⟨_, rfl, rfl, rfl, mapGet_mapSet_self orders orderId _⟩

/-- Claim C5: for every order id and every prior store contents (any prior
status, or no stored order at all), cancelling with a well-formed body
succeeds, overwriting the store entry with a copy whose status is `CANCELLED`
and whose `cancelledAt` is set; cancelling again yields the same terminal
shape (status `CANCELLED`, `cancelledAt` set) with no error. -/
theorem cancel_unconditional_and_idempotent (orderId : String) (body : Json)
    (now now2 : String) (orders : Store) (h : validCancelBody body) :
    (∃ o, (handleCancel orderId body now orders).1 = .ok o
      ∧ o.status = "CANCELLED" ∧ o.cancelledAt = some now
      ∧ mapGet (handleCancel orderId body now orders).2 orderId = some o)
    ∧ (∃ o2, (handleCancel orderId body now2
          (handleCancel orderId body now orders).2).1 = .ok o2
      ∧ o2.status = "CANCELLED" ∧ o2.cancelledAt = some now2
      ∧ mapGet (handleCancel orderId body now2
          (handleCancel orderId body now orders).2).2 orderId = some o2) :=
  ⟨cancel_ok_general orderId body now orders h,
   cancel_ok_general orderId body now2 (handleCancel orderId body now orders).2 h⟩

/-- Witness for C5: cancelling an unknown id twice on the empty store. -/
theorem cancel_unconditional_and_idempotent_witness :
    (∃ o, (handleCancel "x" (Json.obj []) "t1" []).1 = .ok o
      ∧ o.status = "CANCELLED" ∧ o.cancelledAt = some "t1"
      ∧ mapGet (handleCancel "x" (Json.obj []) "t1" []).2 "x" = some o)
    ∧ (∃ o2, (handleCancel "x" (Json.obj []) "t2"
          (handleCancel "x" (Json.obj []) "t1" []).2).1 = .ok o2
      ∧ o2.status = "CANCELLED" ∧ o2.cancelledAt = some "t2"
      ∧ mapGet (handleCancel "x" (Json.obj []) "t2"
          (handleCancel "x" (Json.obj []) "t1" []).2).2 "x" = some o2) :=
  cancel_unconditional_and_idempotent "x" (Json.obj []) "t1" "t2" []
    ⟨⟨[], rfl⟩, Or.inl rfl⟩

/-! ## Claim C6: `cancelledAt` is set iff status is CANCELLED -/

/-- The claimed invariant of a single order. -/
def cancelInv (o : Order) : Prop := o.cancelledAt.isSome = true ↔ o.status = "CANCELLED"

/-- All orders in the store satisfy the invariant. -/
def storeInv (m : Store) : Prop := ∀ p ∈ m, cancelInv p.2

theorem storeInv_mapSet (m : Store) (k : String) (v : Order)
    (hm : storeInv m) (hv : cancelInv v) : storeInv (mapSet m k v) := by
  intro p hp
  rcases mem_mapSet m k v p hp with h | h
  · rw [h]; exact hv
  · exact hm p h

/-- The order synthesized by `GET /orders` on an empty store for the query
`status=CANCELLED`. -/
def orderX6 : Order :=
  { id := "id0", customerId := "customer-default", status := "CANCELLED"
    items := [{ sku := "SKU-DEFAULT", quantity := 1, unitPrice := 100 }]
    totalAmount := 100, createdAt := "t0", cancelledAt := none }

/-- Claim C6 counterexample: on an empty store, the list operation with the
(valid) filter `status=CANCELLED` returns a synthesized order whose status is
`CANCELLED` but whose `cancelledAt` is absent, so not every order returned by
an operation satisfies the claimed iff. -/
theorem list_returns_cancelled_without_cancelledAt :
    handleList ⟨none, some "CANCELLED", none, none⟩ [] "id0" "t0"
      = ListResult.ok [orderX6]
    ∧ orderX6.status = "CANCELLED" ∧ orderX6.cancelledAt = none := by
  refine ⟨by decide, rfl, rfl⟩

/-- Claim C6 (amended): the invariant `cancelledAt` set iff status `CANCELLED`
is established by `buildOrder`, preserved by the create and cancel operations
(both for the returned order and for the store), and holds for every order
`get` returns from a store satisfying it; for `list` it holds for every
returned order except in the one synthesized-fallback case the counterexample
exhibits (empty store with a `status=CANCELLED` filter). -/
theorem cancelledAt_iff_cancelled_amended :
    (∀ orderId payload now, cancelInv (buildOrder orderId payload now))
    ∧ (∀ body orderId now orders r m', handleCreate body orderId now orders = (r, m') →
        (∀ o, r = .created o → cancelInv o) ∧ (storeInv orders → storeInv m'))
    ∧ (∀ orderId orders now, storeInv orders → cancelInv (handleGet orderId orders now))
    ∧ (∀ orderId body now orders r m', handleCancel orderId body now orders = (r, m') →
        (∀ o, r = .ok o → cancelInv o) ∧ (storeInv orders → storeInv m'))
    ∧ (∀ q orders freshId now l, storeInv orders →
        (orders ≠ [] ∨ q.status ≠ some "CANCELLED") →
        handleList q orders freshId now = .ok l → ∀ o ∈ l, cancelInv o) := by
  refine ⟨?_, ?_, ?_, ?_, ?_⟩
  · intro orderId payload now
    simp [cancelInv, buildOrder]
  · intro body orderId now orders r m' h
    unfold handleCreate at h
    split at h
    · split at h
      · cases h
        exact ⟨fun o ho => (nomatch ho), fun hs => hs⟩
      · split at h
        · cases h
          exact ⟨fun o ho => (nomatch ho), fun hs => hs⟩
        · cases h
          refine ⟨fun o ho => ?_, fun hs => ?_⟩
          · cases ho
            simp [cancelInv, buildOrder]
          · exact storeInv_mapSet orders orderId _ hs (by simp [cancelInv, buildOrder])
    · cases h
      exact ⟨fun o ho => (nomatch ho), fun hs => hs⟩
  · intro orderId orders now hs
    unfold handleGet
    split
    · rename_i o ho
      exact hs _ (mapGet_mem orders orderId o ho)
    · simp [cancelInv, defaultOrderFor]
  · intro orderId body now orders r m' h
    simp only [handleCancel] at h
    split at h
    · split at h
      · cases h
        refine ⟨fun o ho => ?_, fun hs => ?_⟩
        · cases ho; simp [cancelInv]
        · exact storeInv_mapSet orders orderId _ hs (by simp [cancelInv])
      · split at h
        · cases h
          exact ⟨fun o ho => (nomatch ho), fun hs => hs⟩
        · cases h
          refine ⟨fun o ho => ?_, fun hs => ?_⟩
          · cases ho; simp [cancelInv]
          · exact storeInv_mapSet orders orderId _ hs (by simp [cancelInv])
      · cases h
        exact ⟨fun o ho => (nomatch ho), fun hs => hs⟩
    · cases h
      exact ⟨fun o ho => (nomatch ho), fun hs => hs⟩
  · intro q orders freshId now l hs hne h
    unfold handleList at h
    split at h
    · cases h
    · split at h
      · cases h
      · simp only [ListResult.ok.injEq] at h
        subst h
        intro o ho
        rw [List.mem_filter] at ho
        rcases ho with ⟨ho, -⟩
        cases orders with
        | cons p rest =>
          simp only [mapValues, List.map_cons, List.isEmpty_cons, if_neg Bool.false_ne_true,
            List.mem_cons] at ho
          rcases ho with rfl | ho
          · exact hs p (List.mem_cons_self _ _)
          · rcases List.mem_map.mp ho with ⟨p', hp', rfl⟩
            exact hs p' (List.mem_cons_of_mem _ hp')
        | nil =>
          rcases hne with hne | hne
          · exact absurd rfl hne
          · simp only [mapValues, List.map_nil, List.isEmpty_nil, if_true,
              List.mem_singleton] at ho
            subst ho
            constructor
            · intro hsome
              simp at hsome
            · intro hst
              exfalso
              rcases q with ⟨cid, st, f, t⟩
              rcases st with _ | s
              · simp [jsOr] at hst
              · by_cases hse : s = ""
                · subst hse; simp [jsOr] at hst
                · simp only [jsOr, if_neg hse] at hst
                  exact hne (by rw [hst])

/-- A payload used to instantiate C6's amended theorem. -/
def payloadW6 : CreateOrderPayload :=
  { customerId := "c", paymentMethodId := "p"
    items := [{ sku := "S", quantity := 1, unitPrice := 2 }] }

/-- Witness for C6 (amended): the invariant at a freshly built order and at a
`get` on the empty store. -/
theorem cancelledAt_iff_cancelled_amended_witness :
    cancelInv (buildOrder "o" payloadW6 "t") ∧ cancelInv (handleGet "g" [] "t") :=
  ⟨cancelledAt_iff_cancelled_amended.1 "o" payloadW6 "t",
   cancelledAt_iff_cancelled_amended.2.2.1 "g" [] "t" (fun p hp => by cases hp)⟩

/-! ## Claims C7/C8/C10: the list handler -/

theorem charListLt_neg : ∀ as bs : List Char,
    (!charListLt as bs) = (charListLt bs as || decide (bs = as))
  | [], [] => by decide
  | [], _ :: _ => by simp [charListLt]
  | _ :: _, [] => by simp [charListLt]
  | a :: as, b :: bs => by
    simp only [charListLt]
    rcases lt_trichotomy a b with h | h | h
    · have h1 : ¬ b < a := not_lt_of_gt h
      have h2 : (b :: bs) ≠ (a :: as) := by simp [(ne_of_gt h)]
      simp [h, h1, h2]
    · subst h
      have h1 : ¬ a < a := lt_irrefl a
      simp only [if_neg h1]
      rw [charListLt_neg as bs]
      simp [List.cons.injEq]
    · have h1 : ¬ a < b := not_lt_of_gt h
      simp [h, h1]

theorem strLt_neg (a b : String) : (!strLt a b) = (strLt b a || b == a) := by
  obtain ⟨as⟩ := a
  obtain ⟨bs⟩ := b
  show (!charListLt as bs) = (charListLt bs as || _)
  rw [charListLt_neg]
  congr 1
  by_cases h : bs = as
  · subst h
    simp
  · have hne : String.mk bs ≠ String.mk as := fun hh => h (by injection hh)
    simp [h, hne]

/-- The claim's filter semantics, stated from its words: every given filter
must match — `customerId` and `status` by exact string equality, `from`/`to`
by `from ≤ createdAt ≤ to` in the lexicographic string order. -/
def claimListPred (q : ListQuery) (o : Order) : Bool :=
  (match q.customerId with
   | some c => o.customerId == c
   | none => true)
  && (match q.status with
      | some s => o.status == s
      | none => true)
  && (match q.fromParam with
      | some f => strLe f o.createdAt
      | none => true)
  && (match q.toParam with
      | some t => strLe o.createdAt t
      | none => true)

/-- The amended filter semantics: as in `claimListPred`, except that a filter
supplied as the empty string is ignored. -/
def specListPred (q : ListQuery) (o : Order) : Bool :=
  (match q.customerId with
   | some c => c == "" || o.customerId == c
   | none => true)
  && (match q.status with
      | some s => s == "" || o.status == s
      | none => true)
  && (match q.fromParam with
      | some f => f == "" || strLe f o.createdAt
      | none => true)
  && (match q.toParam with
      | some t => t == "" || strLe o.createdAt t
      | none => true)

theorem ifChain (b1 b2 b3 b4 : Bool) :
    (if b1 then false else if b2 then false
     else if b3 then false else if b4 then false else true)
    = (!b1 && !b2 && !b3 && !b4) := by
  cases b1 <;> cases b2 <;> cases b3 <;> cases b4 <;> rfl

theorem keepEq (x : Option String) (v : String) :
    (!(truthy x && v != x.getD ""))
    = (match x with
       | some c => c == "" || v == c
       | none => true) := by
  rcases x with _ | c
  · simp [truthy]
  · by_cases h : c = ""
    · subst h
      simp [truthy]
    · have ht : truthy (some c) = true := by simp [truthy, h]
      have hc : (c == "") = false := by simp [h]
      simp [ht, hc, Option.getD, bne]

theorem keepFrom (x : Option String) (v : String) :
    (!(truthy x && strLt v (x.getD "")))
    = (match x with
       | some f => f == "" || strLe f v
       | none => true) := by
  rcases x with _ | f
  · simp [truthy]
  · by_cases h : f = ""
    · subst h
      simp [truthy]
    · have ht : truthy (some f) = true := by simp [truthy, h]
      have hc : (f == "") = false := by simp [h]
      simp only [ht, Bool.true_and, Option.getD, hc, Bool.false_or]
      rw [strLt_neg]
      rfl

theorem keepTo (x : Option String) (v : String) :
    (!(truthy x && strLt (x.getD "") v))
    = (match x with
       | some t => t == "" || strLe v t
       | none => true) := by
  rcases x with _ | t
  · simp [truthy]
  · by_cases h : t = ""
    · subst h
      simp [truthy]
    · have ht : truthy (some t) = true := by simp [truthy, h]
      have hc : (t == "") = false := by simp [h]
      simp only [ht, Bool.true_and, Option.getD, hc, Bool.false_or]
      rw [strLt_neg]
      rfl

theorem matchesFilters_eq_spec (q : ListQuery) (o : Order) :
    matchesFilters q o = specListPred q o := by
  obtain ⟨cid, st, f, t⟩ := q
  show (if truthy cid && o.customerId != cid.getD "" then false
        else if truthy st && o.status != st.getD "" then false
        else if truthy f && strLt o.createdAt (f.getD "") then false
        else if truthy t && strLt (t.getD "") o.createdAt then false
        else true) = _
  rw [ifChain, keepEq cid o.customerId, keepEq st o.status,
    keepFrom f o.createdAt, keepTo t o.createdAt]
  rfl

/-- An order with customer `c1` used to exercise the list filters. -/
def orderA : Order :=
  { id := "a1", customerId := "c1", status := "CONFIRMED"
    items := [{ sku := "S", quantity := 1, unitPrice := 4 }]
    totalAmount := 4, createdAt := "2024-01-01T00:00:00.000Z" }

/-- A one-order store used to exercise the list filters. -/
def storeA : Store := [("a1", orderA)]

/-- Claim C7 counterexample: with order A (customerId `c1`) stored and the
filter `customerId` given as the empty string, the handler returns `[A]`,
while the claimed exact-equality semantics selects no order — the returned
list is not "exactly the orders satisfying the conjunction of all given
filters". -/
theorem list_empty_filter_not_exact_match :
    handleList ⟨some "", none, none, none⟩ storeA "f1" "t1" = ListResult.ok [orderA]
    ∧ (mapValues storeA).filter (claimListPred ⟨some "", none, none, none⟩) = [] := by
  constructor <;> decide

/-- Claim C7 (amended): for every non-empty store and every combination of
filters that passes validation, list returns exactly the stored orders
satisfying the conjunction of the given filters — customerId and status by
exact string equality, from/to by lexicographic comparison against createdAt —
except that a filter given as the empty string is ignored (JS truthiness). -/
theorem list_filter_semantics (q : ListQuery) (orders : Store) (freshId now : String)
    (hne : orders ≠ [])
    (hst : ∀ s, q.status = some s → s = "" ∨ s ∈ orderStatuses)
    (hfrom : ∀ f, q.fromParam = some f → f = "" ∨ isValidDateTime f = true)
    (hto : ∀ t, q.toParam = some t → t = "" ∨ isValidDateTime t = true) :
    handleList q orders freshId now
      = ListResult.ok ((mapValues orders).filter (specListPred q)) := by
  have c1 : (truthy q.status && !orderStatuses.contains (q.status.getD "")) = false := by
    rcases hq : q.status with _ | s
    · simp [truthy]
    · rcases hst s hq with rfl | hmem
      · simp [truthy]
      · simp [truthy, Option.getD, hmem]
  have c2 : (truthy q.fromParam && !isValidDateTime (q.fromParam.getD "")
      || truthy q.toParam && !isValidDateTime (q.toParam.getD "")) = false := by
    have hf : (truthy q.fromParam && !isValidDateTime (q.fromParam.getD "")) = false := by
      rcases hq : q.fromParam with _ | f
      · simp [truthy]
      · rcases hfrom f hq with rfl | hval
        · simp [truthy]
        · simp [truthy, Option.getD, hval]
    have hg : (truthy q.toParam && !isValidDateTime (q.toParam.getD "")) = false := by
      rcases hq : q.toParam with _ | t
      · simp [truthy]
      · rcases hto t hq with rfl | hval
        · simp [truthy]
        · simp [truthy, Option.getD, hval]
    simp [hf, hg]
  have hemp : (mapValues orders).isEmpty = false := by
    cases orders with
    | nil => exact absurd rfl hne
    | cons p rest => rfl
  have hfun : matchesFilters q = specListPred q := funext (matchesFilters_eq_spec q)
  simp only [handleList, c1, c2, hemp, hfun]
  simp

/-- Witness for C7 (amended) at `storeA` with an exact customerId filter. -/
theorem list_filter_semantics_witness :
    handleList ⟨some "c1", none, none, none⟩ storeA "f1" "t1"
      = ListResult.ok ((mapValues storeA).filter (specListPred ⟨some "c1", none, none, none⟩)) :=
  list_filter_semantics ⟨some "c1", none, none, none⟩ storeA "f1" "t1"
    (by decide) (fun s h => nomatch h) (fun f h => nomatch h) (fun t h => nomatch h)

/-- Claim C8 counterexample: the empty string is not one of the four status
enum values, yet a list request with `status=""` is not rejected — JS
truthiness skips the check. -/
theorem list_accepts_empty_status_filter :
    ¬ ("" ∈ orderStatuses)
    ∧ handleList ⟨none, some "", none, none⟩ [] "id0" "t0" ≠ ListResult.invalidQuery := by
  constructor <;> decide

/-- Claim C8 (amended): list returns the InvalidQuery rejection if and only if
the status filter is given as a non-empty string outside the four known enum
values, or from/to is given as a non-empty string failing `isValidDateTime`
(the date-time profile plus a real-instant check); an empty-string parameter
is treated as absent. -/
theorem list_invalid_query_iff (q : ListQuery) (orders : Store) (freshId now : String) :
    handleList q orders freshId now = ListResult.invalidQuery
    ↔ (∃ s, q.status = some s ∧ s ≠ "" ∧ s ∉ orderStatuses)
    ∨ (∃ f, q.fromParam = some f ∧ f ≠ "" ∧ isValidDateTime f = false)
    ∨ (∃ t, q.toParam = some t ∧ t ≠ "" ∧ isValidDateTime t = false) := by
  unfold handleList
  split
  · rename_i h
    rw [Bool.and_eq_true] at h
    obtain ⟨h1, h2⟩ := h
    apply iff_of_true rfl
    left
    rcases hq : q.status with _ | s
    · rw [hq] at h1; simp [truthy] at h1
    · rw [hq] at h1 h2
      refine ⟨s, rfl, ?_, ?_⟩
      · simpa [truthy] using h1
      · intro hmem
        simp [Option.getD] at h2
        exact h2 hmem
  · split
    · rename_i hn1 h
      rw [Bool.or_eq_true] at h
      apply iff_of_true rfl
      rcases h with h | h <;> rw [Bool.and_eq_true] at h <;> obtain ⟨h1, h2⟩ := h
      · right; left
        rcases hq : q.fromParam with _ | f
        · rw [hq] at h1; simp [truthy] at h1
        · rw [hq] at h1 h2
          refine ⟨f, rfl, by simpa [truthy] using h1, ?_⟩
          simpa [Option.getD] using h2
      · right; right
        rcases hq : q.toParam with _ | t
        · rw [hq] at h1; simp [truthy] at h1
        · rw [hq] at h1 h2
          refine ⟨t, rfl, by simpa [truthy] using h1, ?_⟩
          simpa [Option.getD] using h2
    · rename_i hn1 hn2
      apply iff_of_false (by simp)
      rw [Bool.not_eq_true] at hn1 hn2
      intro hcon
      rcases hcon with ⟨s, hq, hne, hnotin⟩ | ⟨f, hq, hne, hbad⟩ | ⟨t, hq, hne, hbad⟩
      · rw [hq] at hn1
        have hs : (s != "") = true := by simpa using hne
        simp only [truthy, Option.getD, hs, Bool.true_and] at hn1
        have hc : orderStatuses.contains s = true := by
          cases hcc : orderStatuses.contains s
          · rw [hcc] at hn1
            exact absurd hn1 (by decide)
          · rfl
        exact hnotin (List.elem_iff.mp hc)
      · rw [hq] at hn2
        have hf : (f != "") = true := by simpa using hne
        simp only [truthy, Option.getD, hf, Bool.true_and, hbad] at hn2
        simp at hn2
      · rw [hq] at hn2
        have hf : (t != "") = true := by simpa using hne
        simp only [truthy, Option.getD, hf, Bool.true_and, hbad] at hn2
        simp at hn2

/-- Claim C10: a list request whose status parameter is the empty string is
not rejected, and behaves exactly as if the status filter were absent — no
status filtering is applied. -/
theorem list_empty_status_is_absent (cid f t : Option String) (orders : Store)
    (freshId now : String) :
    handleList ⟨cid, some "", f, t⟩ orders freshId now
      = handleList ⟨cid, none, f, t⟩ orders freshId now
    ∧ ((truthy f = true → isValidDateTime (f.getD "") = true)
       → (truthy t = true → isValidDateTime (t.getD "") = true)
       → handleList ⟨cid, some "", f, t⟩ orders freshId now ≠ ListResult.invalidQuery) := by
  have hm : matchesFilters ⟨cid, some "", f, t⟩ = matchesFilters ⟨cid, none, f, t⟩ :=
    funext fun o => by simp [matchesFilters, truthy]
  constructor
  · simp only [handleList, hm]
    have h1 : truthy (some "") = false := rfl
    have h2 : truthy (none : Option String) = false := rfl
    have h3 : jsOr (some "") "CONFIRMED" = jsOr none "CONFIRMED" := rfl
    simp only [h1, h2, h3]
    simp
  · intro hf ht
    have c1 : (truthy (some "")
        && !orderStatuses.contains ((some "").getD "")) = false := rfl
    have c2 : (truthy f && !isValidDateTime (f.getD "")
        || truthy t && !isValidDateTime (t.getD "")) = false := by
      cases hft : truthy f with
      | false =>
        cases htt : truthy t with
        | false => simp
        | true => simp [ht htt]
      | true =>
        cases htt : truthy t with
        | false => simp [hf hft]
        | true => simp [hf hft, ht htt]
    simp only [handleList, c1, c2]
    simp

/-- Witness for C10 on the empty store with no other filters. -/
theorem list_empty_status_is_absent_witness :
    handleList ⟨none, some "", none, none⟩ [] "i0" "t0"
      = handleList ⟨none, none, none, none⟩ [] "i0" "t0"
    ∧ handleList ⟨none, some "", none, none⟩ [] "i0" "t0" ≠ ListResult.invalidQuery :=
  ⟨(list_empty_status_is_absent none none none [] "i0" "t0").1,
   (list_empty_status_is_absent none none none [] "i0" "t0").2
     (fun h => nomatch h) (fun h => nomatch h)⟩

end OrderService
